import Mathlib

/-!
Shallow embedding of the query/write orchestration layer of trifle-cli
(main.go, mcp.go, local_driver.go, internal/api/client.go) together with
proofs of the specification claims about it.

Machine integers are modelled as `Int`/`Nat`, Go strings as Lean `String`,
`map[string]any` JSON payloads as association lists over an inductive
`JValue`.  External collaborators (the Go standard library `time` package,
the trifle_stats_go series library, the HTTP transport) are modelled as
abstract function bundles passed in as parameters, exactly at the call
boundaries the source uses.
-/

/-! ### Go string primitives used by the source -/

/-- Character model of byte values used by `unicode.IsSpace` on the ASCII
range (space, tab, newline, vertical tab, form feed, carriage return, and
the two Latin-1 spaces), as consumed by `strings.TrimSpace`. -/
def goIsSpace (c : Char) : Bool :=
  c.toNat = 32 || c.toNat = 9 || c.toNat = 10 || c.toNat = 11 ||
  c.toNat = 12 || c.toNat = 13 || c.toNat = 133 || c.toNat = 160

/-- List-level trimming: drop leading and trailing whitespace. -/
def goTrimList (l : List Char) : List Char :=
  ((l.dropWhile goIsSpace).reverse.dropWhile goIsSpace).reverse

/-- Model of Go `strings.TrimSpace`. -/
def goTrimSpace (s : String) : String :=
  ⟨goTrimList s.data⟩

/-- Model of `unicode.ToLower` on the ASCII range: map A-Z to a-z. -/
def goToLowerChar (c : Char) : Char :=
  if 65 ≤ c.toNat ∧ c.toNat ≤ 90 then Char.ofNat (c.toNat + 32) else c

/-- Model of Go `strings.ToLower`. -/
def goToLower (s : String) : String :=
  ⟨s.data.map goToLowerChar⟩

/-- Model of Go `strings.Contains` at the character-list level: does `sub`
occur as a contiguous run inside `s`? -/
def goContainsList : List Char → List Char → Bool
  | [], sub => sub.isEmpty
  | c :: rest, sub => sub.isPrefixOf (c :: rest) || goContainsList rest sub

/-- Model of Go `strings.Contains`. -/
def goContains (s sub : String) : Bool :=
  goContainsList s.data sub.data

/-- ASCII digit test, the semantics of `\d` in Go's RE2 regexp engine. -/
def isDigitGo (c : Char) : Bool :=
  48 ≤ c.toNat && c.toNat ≤ 57

/-- Model of `strconv.Atoi` on a digit run (arbitrary precision; the
int-range overflow failure of Go is not modelled). -/
def digitsToNat : List Char → Option Nat
  | [] => none
  | l => if l.all isDigitGo then
      some (l.foldl (fun acc c => acc * 10 + (c.toNat - 48)) 0)
    else none

/-- Model of Go `strconv.Atoi`: optional sign followed by digits. -/
def parseIntGo (s : String) : Option Int :=
  match s.data with
  | '+' :: rest => (digitsToNat rest).map Int.ofNat
  | '-' :: rest => (digitsToNat rest).map (fun n => -(n : Int))
  | l => (digitsToNat l).map Int.ofNat

/-! ### Shared list helpers of the repository (mcp helpers file) -/

/-- Source `containsString`: linear membership scan. -/
def containsString (values : List String) (target : String) : Bool :=
  values.any (fun value => value = target)

/-- Source `uniqueStrings`: collect the values into a set (a Go map) and
return the sorted key list; modelled as dedup followed by a sort, which is
exactly the set of distinct values in lexicographic order. -/
def uniqueStrings (values : List String) : List String :=
  List.insertionSort (· ≤ ·) values.dedup

/-- Source `filterAvailable`: keep the paths that are available, then
dedup and sort via `uniqueStrings`. -/
def filterAvailable (paths available : List String) : List String :=
  if paths.isEmpty || available.isEmpty then []
  else uniqueStrings (paths.filter (fun p => containsString available p))

/-- Source `sortedKeys`: sorted list of the keys of a Go string-set. -/
def sortedKeys (keys : List String) : List String :=
  uniqueStrings keys

/-- Source `ensureNoWildcards`: reject a value path containing `*`. -/
def ensureNoWildcards (value : String) : Option String :=
  if goContains value "*" then
    some ("wildcards are not supported in value_path " ++ value)
  else none

/-! ### Error-to-guidance mapper (main.go `maybeSuggestSetup`) -/

/-- Source `normalizeDriverName`: lower-case, trim, and canonicalize the
`mongodb` alias to `mongo`. -/
def normalizeDriverName (name : String) : String :=
  let value := goToLower (goTrimSpace name)
  if value = "mongodb" then "mongo" else value

/-- The apostrophe character, kept out of string literals. -/
def apos : String := String.singleton (Char.ofNat 39)

/-- The MySQL missing-table signature substring. -/
def doesNotExistSig : String := "doesn" ++ apos ++ "t exist"

/-- Source `maybeSuggestSetup` (main.go): errors are modelled by their
message string (the `err == nil` guard concerns Go's nil error and has no
counterpart for a present message).  Inspects the message for the three
missing-object signatures and, when one matches and the driver is a
relational/embedded engine, appends a setup remediation command. -/
def maybeSuggestSetup (message driverName targetName : String) : String :=
  let messageLower := goToLower message
  let normalizedDriver0 := normalizeDriverName driverName
  let normalizedDriver := if normalizedDriver0 = "" then "sqlite" else normalizedDriver0
  if ¬(goContains messageLower "no such table" ||
       goContains messageLower doesNotExistSig ||
       goContains messageLower "relation") then
    message
  else if normalizedDriver = "sqlite" ∨ normalizedDriver = "postgres" ∨ normalizedDriver = "mysql" then
    let target := if goTrimSpace targetName = "" then "trifle_stats" else targetName
    message ++ " (run: trifle metrics setup --driver " ++ normalizedDriver ++ " --table " ++ target ++ ")"
  else if normalizedDriver = "mongo" then
    message ++ " (run: trifle metrics setup --driver mongo)"
  else
    message

/-- C7: `maybeSuggestSetup` passes non-matching errors through unchanged,
and appends the sqlite remediation command (with the `trifle_stats`
default table) to a matching sqlite-style message. -/
theorem maybeSuggestSetup_spec (message driverName targetName m2 t2 : String)
    (hnone : goContains (goToLower message) "no such table" = false)
    (hnone2 : goContains (goToLower message) doesNotExistSig = false)
    (hnone3 : goContains (goToLower message) "relation" = false)
    (hmatch : goContains (goToLower m2) "no such table" = true) :
    maybeSuggestSetup message driverName targetName = message ∧
    maybeSuggestSetup m2 "sqlite" t2 =
      m2 ++ " (run: trifle metrics setup --driver sqlite --table " ++
        (if goTrimSpace t2 = "" then "trifle_stats" else t2) ++ ")" := by
  constructor
  · unfold maybeSuggestSetup
    simp [hnone, hnone2, hnone3]
  · unfold maybeSuggestSetup
    have hdrv : normalizeDriverName "sqlite" = "sqlite" := by decide
    simp [hdrv, hmatch, String.append_assoc]

/-- Concrete instantiation of `maybeSuggestSetup_spec`: a connection
error passes through unchanged, and a missing-table sqlite error gains
the remediation command with the default table name. -/
theorem maybeSuggestSetup_spec_witness :
    maybeSuggestSetup "dial tcp timeout" "redis" "" = "dial tcp timeout" ∧
    maybeSuggestSetup "SQL logic error: no such table: metrics" "sqlite" "" =
      "SQL logic error: no such table: metrics (run: trifle metrics setup --driver sqlite --table trifle_stats)" := by
  have h := maybeSuggestSetup_spec "dial tcp timeout" "redis" ""
    "SQL logic error: no such table: metrics" ""
    (by decide) (by decide) (by decide) (by decide)
  exact ⟨h.1, h.2⟩

/-! ### Time library boundary (Go `time` package) -/

/-- Abstract model of the Go `time` package calls the source makes:
instants are `Int` seconds, `parse` models `time.Parse(time.RFC3339Nano, s)`
(`none` for a parse error) and `fmt` models `t.Format(time.RFC3339)`.
`now.Add(-24 * time.Hour)` is `now - 86400`. -/
structure TimeLib where
  parse : String → Option Int
  fmt : Int → String

/-- Source `validateTimestamp` (main.go): `some` an error message when the
value does not parse as RFC3339. -/
def validateTimestamp (lib : TimeLib) (label value : String) : Option String :=
  match lib.parse value with
  | some _ => none
  | none => some (label ++ " must be RFC3339 (e.g. 2024-01-02T15:04:05Z or 2024-01-02T15:04:05+00:00)")

/-- Source `resolveTimeRange` (main.go): trim both bounds, default to
`[now-24h, now]` when both are empty, reject a single bound, and validate
both otherwise. -/
def resolveTimeRange (lib : TimeLib) (now : Int) (fromArg toArg : String) :
    Except String (String × String) :=
  let fromV := goTrimSpace fromArg
  let toV := goTrimSpace toArg
  if fromV = "" ∧ toV = "" then
    .ok (lib.fmt (now - 86400), lib.fmt now)
  else if fromV = "" ∨ toV = "" then
    .error "from and to are required together (RFC3339, e.g. 2024-01-02T15:04:05Z)"
  else
    match validateTimestamp lib "from" fromV with
    | some e => .error e
    | none =>
      match validateTimestamp lib "to" toV with
      | some e => .error e
      | none => .ok (fromV, toV)

/-- C1: case analysis of `resolveTimeRange`.  Both bounds empty after
trimming yields the formatted `[now-24h, now]` default; exactly one empty
bound is an error; two parseable bounds are returned unchanged (up to the
trimming), with no ordering constraint between them; a bound that fails
to parse is an error. -/
theorem resolveTimeRange_spec (lib : TimeLib) (now : Int) (fromArg toArg : String) :
    (goTrimSpace fromArg = "" → goTrimSpace toArg = "" →
      resolveTimeRange lib now fromArg toArg = .ok (lib.fmt (now - 86400), lib.fmt now)) ∧
    (goTrimSpace fromArg = "" → goTrimSpace toArg ≠ "" →
      (resolveTimeRange lib now fromArg toArg).isOk = false) ∧
    (goTrimSpace fromArg ≠ "" → goTrimSpace toArg = "" →
      (resolveTimeRange lib now fromArg toArg).isOk = false) ∧
    (goTrimSpace fromArg ≠ "" → goTrimSpace toArg ≠ "" →
      (lib.parse (goTrimSpace fromArg)).isSome →
      (lib.parse (goTrimSpace toArg)).isSome →
      resolveTimeRange lib now fromArg toArg = .ok (goTrimSpace fromArg, goTrimSpace toArg)) ∧
    (goTrimSpace fromArg ≠ "" → goTrimSpace toArg ≠ "" →
      ((lib.parse (goTrimSpace fromArg)).isNone ∨ (lib.parse (goTrimSpace toArg)).isNone) →
      (resolveTimeRange lib now fromArg toArg).isOk = false) := by
  unfold resolveTimeRange validateTimestamp
  refine ⟨?_, ?_, ?_, ?_, ?_⟩
  · intro h1 h2; simp [h1, h2]
  · intro h1 h2; simp [h1, h2, Except.isOk, Except.toBool]
  · intro h1 h2; simp [h1, h2, Except.isOk, Except.toBool]
  · intro h1 h2 h3 h4
    simp only [h1, h2, false_and, if_false, false_or, if_neg h2]
    match hp : lib.parse (goTrimSpace fromArg) with
    | none => rw [hp] at h3; simp at h3
    | some x =>
      match hq : lib.parse (goTrimSpace toArg) with
      | none => rw [hq] at h4; simp at h4
      | some y => simp
  · intro h1 h2 h3
    simp only [h1, h2, false_and, if_false, false_or, if_neg h2]
    rcases h3 with h3 | h3
    · match hp : lib.parse (goTrimSpace fromArg) with
      | none => simp [Except.isOk, Except.toBool]
      | some x => rw [hp] at h3; simp at h3
    · match hp : lib.parse (goTrimSpace fromArg) with
      | none => simp [Except.isOk, Except.toBool]
      | some x =>
        match hq : lib.parse (goTrimSpace toArg) with
        | none => simp [Except.isOk, Except.toBool]
        | some y => rw [hq] at h3; simp at h3

/-- Time library instance used for concrete instantiations: every string
parses to the instant 0 and instants format to a fixed literal. -/
def timeLibAll : TimeLib :=
  { parse := fun _ => some 0, fmt := fun t => "t" ++ toString t }

/-- Time library instance for concrete instantiations in which no string
parses. -/
def timeLibNone : TimeLib :=
  { parse := fun _ => none, fmt := fun t => "t" ++ toString t }

/-- Concrete instantiation of `resolveTimeRange_spec`: the default pair
for two empty bounds, an error for a single bound, a supplied pair with
from = to returned unchanged, and an error for an unparseable bound. -/
theorem resolveTimeRange_spec_witness :
    resolveTimeRange timeLibAll 86400 "" " " = .ok ("t0", "t86400") ∧
    (resolveTimeRange timeLibAll 0 "2024-01-02T15:04:05Z" "").isOk = false ∧
    resolveTimeRange timeLibAll 0 "2024-01-02T15:04:05Z" "2024-01-02T15:04:05Z" =
      .ok ("2024-01-02T15:04:05Z", "2024-01-02T15:04:05Z") ∧
    (resolveTimeRange timeLibNone 0 "bogus" "bogus").isOk = false := by
  refine ⟨?_, ?_, ?_, ?_⟩
  · exact (resolveTimeRange_spec timeLibAll 86400 "" " ").1 (by decide) (by decide)
  · exact ((resolveTimeRange_spec timeLibAll 0 "2024-01-02T15:04:05Z" "").2.2.1) (by decide) (by decide)
  · exact ((resolveTimeRange_spec timeLibAll 0 "2024-01-02T15:04:05Z" "2024-01-02T15:04:05Z").2.2.2.1)
      (by decide) (by decide) (by decide) (by decide)
  · exact ((resolveTimeRange_spec timeLibNone 0 "bogus" "bogus").2.2.2.2)
      (by decide) (by decide) (Or.inl (by decide))

/-! ### Granularity validation (main.go `validateGranularity`) -/

/-- The unit alternatives of the pattern `^\d+(s|m|h|d|w|mo|q|y)$`
(main.go `granularityPattern`). -/
def granularityUnits : List String := ["s", "m", "h", "d", "w", "mo", "q", "y"]

/-- Does `l` split as a non-empty digit run followed by exactly `u`? -/
def splitMatch (l u : List Char) : Bool :=
  decide (u.length < l.length) &&
  (l.drop (l.length - u.length) == u) &&
  (l.take (l.length - u.length)).all isDigitGo

/-- Executable model of `granularityPattern.MatchString`: the string is a
non-empty digit run followed by one of the unit alternatives. -/
def granularityMatch (s : String) : Bool :=
  granularityUnits.any fun u => splitMatch s.data u.data

/-- Source `validateGranularity` (main.go): lower-case and trim, reject
the empty string and pattern mismatches, return the normalized value. -/
def validateGranularity (value : String) : Except String String :=
  let normalized := goToLower (goTrimSpace value)
  if normalized = "" then .error "granularity is required"
  else if ¬granularityMatch normalized then
    .error "granularity must be <number><unit> using s, m, h, d, w, mo, q, y (e.g. 1h, 15m, 1d)"
  else .ok normalized

/-- Declarative reading of the pattern `^\d+(s|m|h|d|w|mo|q|y)$`. -/
def GranPattern (s : String) : Prop :=
  ∃ u ∈ granularityUnits, ∃ d : List Char,
    s.data = d ++ u.data ∧ d ≠ [] ∧ ∀ c ∈ d, isDigitGo c = true

/-- The executable matcher decides exactly the declarative pattern. -/
theorem granularityMatch_iff (s : String) :
    granularityMatch s = true ↔ GranPattern s := by
  unfold granularityMatch GranPattern
  rw [List.any_eq_true]
  constructor
  · rintro ⟨u, hu, hsplit⟩
    unfold splitMatch at hsplit
    simp only [Bool.and_eq_true, decide_eq_true_eq, beq_iff_eq, List.all_eq_true] at hsplit
    obtain ⟨⟨hlen, hdrop⟩, hdig⟩ := hsplit
    refine ⟨u, hu, s.data.take (s.data.length - u.data.length), ?_, ?_, ?_⟩
    · conv_lhs => rw [← List.take_append_drop (s.data.length - u.data.length) s.data]
      rw [hdrop]
    · intro hnil
      have h0 : (s.data.take (s.data.length - u.data.length)).length = 0 := by
        rw [hnil]; rfl
      rw [List.length_take] at h0
      omega
    · exact hdig
  · rintro ⟨u, hu, d, hdecomp, hne, hdig⟩
    refine ⟨u, hu, ?_⟩
    unfold splitMatch
    have hlen : s.data.length = d.length + u.data.length := by
      rw [hdecomp]; simp
    have hn : s.data.length - u.data.length = d.length := by omega
    simp only [Bool.and_eq_true, decide_eq_true_eq, beq_iff_eq, List.all_eq_true]
    refine ⟨⟨?_, ?_⟩, ?_⟩
    · have : 0 < d.length := List.length_pos.mpr hne
      omega
    · rw [hn, hdecomp, List.drop_left]
    · rw [hn, hdecomp, List.take_left]
      exact hdig

/-- Every character of a unit alternative is fixed by ASCII lower-casing
and is not whitespace. -/
theorem unit_chars :
    ∀ u ∈ granularityUnits, ∀ c ∈ u.data, goToLowerChar c = c ∧ goIsSpace c = false := by
  decide

/-- Every character of a pattern match is fixed by ASCII lower-casing and
is not whitespace. -/
theorem granularityMatch_chars (s : String) (h : granularityMatch s = true) :
    ∀ c ∈ s.data, goToLowerChar c = c ∧ goIsSpace c = false := by
  rw [granularityMatch_iff] at h
  obtain ⟨u, hu, d, hdecomp, _, hdig⟩ := h
  intro c hc
  rw [hdecomp, List.mem_append] at hc
  rcases hc with hc | hc
  · have hd := hdig c hc
    unfold isDigitGo at hd
    simp only [Bool.and_eq_true, decide_eq_true_eq] at hd
    constructor
    · unfold goToLowerChar
      rw [if_neg]; omega
    · unfold goIsSpace
      simp only [Bool.or_eq_false_iff, decide_eq_false_iff_not]
      omega
  · exact unit_chars u hu c hc

/-- A list each of whose elements fails the predicate is untouched by
`dropWhile`. -/
theorem dropWhile_eq_self_of (p : Char → Bool) (l : List Char)
    (h : ∀ c ∈ l, p c = false) : l.dropWhile p = l := by
  cases l with
  | nil => rfl
  | cons c rest =>
    rw [List.dropWhile_cons, if_neg]
    simp [h c (List.mem_cons_self c rest)]

/-- Mapping a function that fixes every element of a list is the
identity on that list. -/
theorem map_eq_self_of (f : Char → Char) (l : List Char)
    (h : ∀ c ∈ l, f c = c) : l.map f = l := by
  induction l with
  | nil => rfl
  | cons c rest ih =>
    simp only [List.map_cons, h c (List.mem_cons_self c rest)]
    rw [ih (fun x hx => h x (List.mem_cons_of_mem c hx))]

/-- Strings all of whose characters are lower-stable non-whitespace are
fixed by `goToLower` and `goTrimSpace`. -/
theorem normalized_fixed (s : String)
    (h : ∀ c ∈ s.data, goToLowerChar c = c ∧ goIsSpace c = false) :
    goToLower s = s ∧ goTrimSpace s = s := by
  constructor
  · unfold goToLower
    rw [map_eq_self_of _ _ (fun c hc => (h c hc).1)]
  · unfold goTrimSpace goTrimList
    rw [dropWhile_eq_self_of _ _ (fun c hc => (h c hc).2)]
    rw [dropWhile_eq_self_of _ _ (fun c hc => (h c (by simpa using hc)).2)]
    simp

/-- C2: `validateGranularity` succeeds exactly on inputs whose lower-cased
trimming is a non-empty match of `^\d+(s|m|h|d|w|mo|q|y)$`, returning that
normalized value, and is idempotent on every value it accepts. -/
theorem validateGranularity_spec (value out : String) :
    (validateGranularity value = .ok out ↔
      (out = goToLower (goTrimSpace value) ∧ out ≠ "" ∧ GranPattern out)) ∧
    (validateGranularity value = .ok out → validateGranularity out = .ok out) := by
  have main : validateGranularity value = .ok out ↔
      (out = goToLower (goTrimSpace value) ∧ out ≠ "" ∧ GranPattern out) := by
    unfold validateGranularity
    constructor
    · intro h
      by_cases h1 : goToLower (goTrimSpace value) = ""
      · rw [if_pos h1] at h; exact absurd h (by simp)
      · rw [if_neg h1] at h
        by_cases h2 : granularityMatch (goToLower (goTrimSpace value)) = true
        · rw [if_neg (by simp [h2])] at h
          have hout : goToLower (goTrimSpace value) = out := by
            simpa using h
          subst hout
          exact ⟨rfl, h1, (granularityMatch_iff _).mp h2⟩
        · rw [if_pos (by simpa using h2)] at h
          exact absurd h (by simp)
    · rintro ⟨hout, hne, hpat⟩
      subst hout
      rw [if_neg hne, if_neg (by simp [(granularityMatch_iff _).mpr hpat])]
  refine ⟨main, fun h => ?_⟩
  obtain ⟨hout, hne, hpat⟩ := main.mp h
  have hmatch : granularityMatch out = true := (granularityMatch_iff _).mpr hpat
  have hfix := normalized_fixed out (granularityMatch_chars out hmatch)
  unfold validateGranularity
  rw [hfix.2, hfix.1, if_neg hne, if_neg (by simp [hmatch])]

/-- Concrete instantiation of `validateGranularity_spec`: the input
`" 1MO "` is accepted as `"1mo"`, and re-validating `"1mo"` returns it
unchanged. -/
theorem validateGranularity_spec_witness :
    validateGranularity " 1MO " = .ok "1mo" ∧ validateGranularity "1mo" = .ok "1mo" := by
  have hok : validateGranularity " 1MO " = .ok "1mo" := by rfl
  exact ⟨hok, (validateGranularity_spec " 1MO " "1mo").2 hok⟩

/-! ### JSON values and tool arguments (`map[string]any` payloads) -/

/-- Model of a decoded Go JSON value (`any` decoded with `UseNumber`):
numbers are modelled as integers, which covers every numeric literal the
claims exercise. -/
inductive JValue where
  | null
  | bool (b : Bool)
  | num (n : Int)
  | str (s : String)
  | arr (elems : List JValue)
  | obj (entries : List (String × JValue))

/-- Is this the JSON null (the Go `nil` interface value)? -/
def JValue.isNull : JValue → Bool
  | .null => true
  | _ => false

/-- Arguments map of a tool call. -/
abbrev Args := List (String × JValue)

/-- Lookup in a Go `map[string]any`. -/
def jlookup (args : Args) (key : String) : Option JValue :=
  (args.find? (fun p => p.1 = key)).map Prod.snd

mutual
/-- Model of `fmt.Sprint` on a decoded JSON value, as used by the default
branch of `getStringArg` (map keys are printed in entry order here while
Go sorts them; no embedded claim inspects this branch). -/
def fmtSprint : JValue → String
  | .null => "<nil>"
  | .bool true => "true"
  | .bool false => "false"
  | .num n => toString n
  | .str s => s
  | .arr l => "[" ++ String.intercalate " " (fmtSprintList l) ++ "]"
  | .obj l => "map[" ++ String.intercalate " " (fmtSprintEntries l) ++ "]"

/-- Prints the elements of a JSON array. -/
def fmtSprintList : List JValue → List String
  | [] => []
  | v :: rest => fmtSprint v :: fmtSprintList rest

/-- Prints the entries of a JSON object. -/
def fmtSprintEntries : List (String × JValue) → List String
  | [] => []
  | (k, v) :: rest => (k ++ ":" ++ fmtSprint v) :: fmtSprintEntries rest
end

/-- Source `getStringArg` (mcp.go): absent and null map to the empty
string, strings pass through, numbers print, anything else goes through
`fmt.Sprint`. -/
def getStringArg (args : Args) (key : String) : String :=
  match jlookup args key with
  | none => ""
  | some .null => ""
  | some (.str s) => s
  | some (.num n) => toString n
  | some v => fmtSprint v

/-- Source `getIntArg` (mcp.go): absent, null, and non-numeric shapes
fall back; numbers are taken as-is; strings are trimmed and parsed. -/
def getIntArg (args : Args) (key : String) (fallback : Int) : Int :=
  match jlookup args key with
  | none => fallback
  | some .null => fallback
  | some (.num n) => n
  | some (.str s) =>
    match parseIntGo (goTrimSpace s) with
    | some parsed => parsed
    | none => fallback
  | some _ => fallback

/-- Source `mapKeys`: the sorted key set of a Go map (assoc-list model;
Go map keys are unique, so dedup is the identity on real inputs). -/
def mapKeys (values : List (String × JValue)) : List String :=
  uniqueStrings (values.map Prod.fst)

/-- Source `extractCategoryPaths`: keys of a category result, which is
either one map or a list whose map entries contribute their keys. -/
def extractCategoryPaths (result : JValue) : List String :=
  match result with
  | .obj entries => mapKeys entries
  | .arr elems =>
    sortedKeys (elems.foldr
      (fun e acc => match e with
        | .obj entries => entries.map Prod.fst ++ acc
        | _ => acc) [])
  | _ => []

/-- Source `ensureValuesMap` (main.go): the values payload must be a JSON
object. -/
def ensureValuesMap (values : JValue) : Except String (List (String × JValue)) :=
  match values with
  | .obj entries => .ok entries
  | _ => .error "values must be a JSON object"

/-! ### Series library boundary (trifle_stats_go) -/

/-- Abstract model of a fetched series as consumed through the
trifle_stats_go library: the paths `series.AvailablePaths()` reports, the
four per-slice aggregators, the timeline/category reshapers, the series
timestamps `series.At`, the table cell accessor
(`NormalizeNumeric(FetchPath(series.Values[i], path))`, `none` for nil),
and `triflestats.NormalizeNumeric` itself. -/
structure SeriesView where
  availablePaths : List String
  aggSum : String → Int → List JValue
  aggMean : String → Int → List JValue
  aggMin : String → Int → List JValue
  aggMax : String → Int → List JValue
  timeline : String → Int → List (String × JValue)
  category : String → Int → JValue
  atTimes : List Int
  cell : Nat → String → Option JValue
  normNum : JValue → Option JValue

/-- Source `normalizeNumericSlice`: normalize each value and strip nils,
parameterized by the library's `NormalizeNumeric`. -/
def normalizeNumericSlice (normNum : JValue → Option JValue) (values : List JValue) : List JValue :=
  values.filterMap normNum

/-- Source `buildTimeframePayload`: the fixed `custom`-labelled frame. -/
structure Timeframe where
  fromS : String
  toS : String
  label : String
  granularity : String

/-- Source `buildTimeframePayload`. -/
def buildTimeframePayload (fromValue toValue granularity : String) : Timeframe :=
  ⟨fromValue, toValue, "custom", granularity⟩

/-- Source `buildSeriesTable`: dedup the paths, return no table when no
paths or no timestamps remain, otherwise one column per path plus the
formatted timestamp column. -/
def buildSeriesTable (lib : TimeLib) (sv : SeriesView) (paths : List String) : Option JValue :=
  let ps := uniqueStrings paths
  if ps.isEmpty || sv.atTimes.isEmpty then none
  else some (.obj [
    ("columns", .arr (.str "at" :: ps.map JValue.str)),
    ("rows", .arr ((List.range sv.atTimes.length).map (fun i =>
      .arr (.str (lib.fmt (sv.atTimes.getD i 0)) ::
        ps.map (fun p => (sv.cell i p).getD .null)))))])

/-- Write mode of the local storage library: `triflestats.Track` versus
`triflestats.Assert`. -/
inductive WriteKind where
  | track
  | assertKind

/-- Abstract model of the local driver runtime plus the library entry
points the orchestration calls: the driver/table names used for error
guidance, the effective granularity list of the config, the
`triflestats.Values` fetch (returning a `SeriesView` or an error
message), and the `Track`/`Assert` write calls (`some` an error). -/
structure LocalState where
  driverName : String
  tableName : String
  grans : List String
  values : String → Int → Int → String → Bool → Except String SeriesView
  write : WriteKind → String → Int → List (String × JValue) → Option String

/-- Source `resolveGranularityLocal` (main.go): validate an explicit
value, otherwise prefer `1h` then `1d` among the config's effective
granularities, else the first of them, else the literal `1h`. -/
def resolveGranularityLocal (granularity : String) (grans : List String) : Except String String :=
  let g := goTrimSpace granularity
  if g ≠ "" then validateGranularity g
  else if containsString grans "1h" then .ok "1h"
  else if containsString grans "1d" then .ok "1d"
  else match grans with
    | g0 :: _ => .ok g0
    | [] => .ok "1h"

/-! ### Local query payloads (mcp.go `queryPayloadLocal`, main.go CLI) -/

/-- The fields a local aggregate/timeline/category payload can carry
(each `Option` field models a map key the source sets only on some
paths). -/
structure LocalQueryPayload where
  status : String
  aggregator : Option String := none
  formatter : Option String := none
  metricKey : String
  valuePath : String
  slices : Int
  values : Option (List JValue) := none
  count : Option Nat := none
  timeframe : Timeframe
  result : Option JValue := none
  availablePaths : List String
  matchedPaths : List String
  value : Option JValue := none
  table : Option JValue := none

/-- Source `queryPayloadLocal` (mcp.go): validate key/path, resolve the
time range and granularity, fetch the series, clamp `slices` to at least
1, and dispatch on the normalized mode. -/
def queryPayloadLocal (lib : TimeLib) (now : Int) (st : LocalState) (mode : String)
    (args : Args) : Except String LocalQueryPayload :=
  let key := goTrimSpace (getStringArg args "key")
  if key = "" then .error "key is required" else
  let valuePath := goTrimSpace (getStringArg args "value_path")
  if valuePath = "" then .error "value_path is required" else
  match ensureNoWildcards valuePath with
  | some e => .error e
  | none =>
  match resolveTimeRange lib now (getStringArg args "from") (getStringArg args "to") with
  | .error e => .error e
  | .ok (fromV, toV) =>
  match resolveGranularityLocal (getStringArg args "granularity") st.grans with
  | .error e => .error e
  | .ok granularity =>
  match lib.parse fromV with
  | none => .error ("parsing time " ++ fromV)
  | some fromT =>
  match lib.parse toV with
  | none => .error ("parsing time " ++ toV)
  | some toT =>
  match st.values key fromT toT granularity false with
  | .error e => .error (maybeSuggestSetup e st.driverName st.tableName)
  | .ok sv =>
  let available := sv.availablePaths
  let slices0 := getIntArg args "slices" 1
  let slices := if slices0 < 1 then 1 else slices0
  match goToLower (goTrimSpace mode) with
  | "aggregate" =>
    if available.isEmpty then
      .error ("no data available for path " ++ valuePath ++ " in the selected timeframe")
    else if ¬containsString available valuePath then
      .error ("unknown path: " ++ valuePath)
    else
      let aggName := goToLower (goTrimSpace (getStringArg args "aggregator"))
      if aggName = "" then .error "aggregator is required"
      else
        match (match aggName with
          | "sum" => some (sv.aggSum valuePath slices)
          | "mean" => some (sv.aggMean valuePath slices)
          | "min" => some (sv.aggMin valuePath slices)
          | "max" => some (sv.aggMax valuePath slices)
          | _ => none) with
        | none => .error ("unsupported aggregator \"" ++ aggName ++ "\"")
        | some raw =>
          let values := normalizeNumericSlice sv.normNum raw
          if values.isEmpty then
            .error ("no data available for path " ++ valuePath ++ " in the selected timeframe")
          else
            .ok { status := "ok", aggregator := some aggName, metricKey := key,
                  valuePath := valuePath, slices := slices, values := some values,
                  count := some values.length,
                  timeframe := buildTimeframePayload fromV toV granularity,
                  availablePaths := available, matchedPaths := [valuePath],
                  value := if slices = 1 then
                      match values.head? with
                      | some v => if v.isNull then none else some v
                      | none => none
                    else none,
                  table := buildSeriesTable lib sv [valuePath] }
  | "timeline" =>
    let formatted := sv.timeline valuePath slices
    let matched := filterAvailable (mapKeys formatted) available
    if matched.isEmpty then
      .error ("no matching data found for path " ++ valuePath ++ " in the selected timeframe")
    else
      .ok { status := "ok", formatter := some "timeline", metricKey := key,
            valuePath := valuePath, slices := slices,
            timeframe := buildTimeframePayload fromV toV granularity,
            result := some (.obj formatted),
            availablePaths := available, matchedPaths := matched,
            table := buildSeriesTable lib sv matched }
  | "category" =>
    let formatted := sv.category valuePath slices
    let matched := filterAvailable (extractCategoryPaths formatted) available
    if matched.isEmpty then
      .error ("no matching data found for path " ++ valuePath ++ " in the selected timeframe")
    else
      .ok { status := "ok", formatter := some "category", metricKey := key,
            valuePath := valuePath, slices := slices,
            timeframe := buildTimeframePayload fromV toV granularity,
            result := some formatted,
            availablePaths := available, matchedPaths := matched,
            table := buildSeriesTable lib sv matched }
  | _ => .error ("unsupported mode \"" ++ mode ++ "\"")

/-- Local branch of the CLI `metrics aggregate` command (main.go
`metricsAggregate`): required-flag check, wildcard check, time range,
granularity, fetch, then the aggregate shaping with the `--slices` flag
value passed through as supplied. -/
def metricsAggregateLocal (lib : TimeLib) (now : Int) (st : LocalState)
    (key valuePath aggregator fromArg toArg granularity : String) (slices : Int) :
    Except String LocalQueryPayload :=
  if key = "" ∨ valuePath = "" ∨ aggregator = "" then
    .error "--key, --value-path, and --aggregator are required" else
  match ensureNoWildcards valuePath with
  | some e => .error e
  | none =>
  match resolveTimeRange lib now fromArg toArg with
  | .error e => .error e
  | .ok (fromV, toV) =>
  match resolveGranularityLocal granularity st.grans with
  | .error e => .error e
  | .ok granularityV =>
  match lib.parse fromV with
  | none => .error ("parsing time " ++ fromV)
  | some fromT =>
  match lib.parse toV with
  | none => .error ("parsing time " ++ toV)
  | some toT =>
  match st.values key fromT toT granularityV false with
  | .error e => .error (maybeSuggestSetup e st.driverName st.tableName)
  | .ok sv =>
  let available := sv.availablePaths
  if available.isEmpty then
    .error ("no data available for path " ++ valuePath ++ " in the selected timeframe")
  else if ¬containsString available valuePath then
    .error ("unknown path: " ++ valuePath)
  else
    let aggName := goToLower (goTrimSpace aggregator)
    match (match aggName with
      | "sum" => some (sv.aggSum valuePath slices)
      | "mean" => some (sv.aggMean valuePath slices)
      | "min" => some (sv.aggMin valuePath slices)
      | "max" => some (sv.aggMax valuePath slices)
      | _ => none) with
    | none => .error ("unsupported aggregator \"" ++ aggregator ++ "\"")
    | some raw =>
      let values := normalizeNumericSlice sv.normNum raw
      if values.isEmpty then
        .error ("no data available for path " ++ valuePath ++ " in the selected timeframe")
      else
        .ok { status := "ok", aggregator := some aggName, metricKey := key,
              valuePath := valuePath, slices := slices, values := some values,
              count := some values.length,
              timeframe := buildTimeframePayload fromV toV granularityV,
              availablePaths := available, matchedPaths := [valuePath],
              value := if slices = 1 then
                  match values.head? with
                  | some v => if v.isNull then none else some v
                  | none => none
                else none,
              table := buildSeriesTable lib sv [valuePath] }

/-- Local branch of the CLI `metrics timeline` command (main.go
`metricsTimeline`), with the `--slices` flag value passed through as
supplied. -/
def metricsTimelineLocal (lib : TimeLib) (now : Int) (st : LocalState)
    (key valuePath fromArg toArg granularity : String) (slices : Int) :
    Except String LocalQueryPayload :=
  if key = "" ∨ valuePath = "" then .error "--key and --value-path are required" else
  match ensureNoWildcards valuePath with
  | some e => .error e
  | none =>
  match resolveTimeRange lib now fromArg toArg with
  | .error e => .error e
  | .ok (fromV, toV) =>
  match resolveGranularityLocal granularity st.grans with
  | .error e => .error e
  | .ok granularityV =>
  match lib.parse fromV with
  | none => .error ("parsing time " ++ fromV)
  | some fromT =>
  match lib.parse toV with
  | none => .error ("parsing time " ++ toV)
  | some toT =>
  match st.values key fromT toT granularityV false with
  | .error e => .error (maybeSuggestSetup e st.driverName st.tableName)
  | .ok sv =>
  let available := sv.availablePaths
  let formatted := sv.timeline valuePath slices
  let matched := filterAvailable (mapKeys formatted) available
  if matched.isEmpty then
    .error ("no matching data found for path " ++ valuePath ++ " in the selected timeframe")
  else
    .ok { status := "ok", formatter := some "timeline", metricKey := key,
          valuePath := valuePath, slices := slices,
          timeframe := buildTimeframePayload fromV toV granularityV,
          result := some (.obj formatted),
          availablePaths := available, matchedPaths := matched,
          table := buildSeriesTable lib sv matched }

/-- Local branch of the CLI `metrics category` command (main.go
`metricsCategory`), with the `--slices` flag value passed through as
supplied. -/
def metricsCategoryLocal (lib : TimeLib) (now : Int) (st : LocalState)
    (key valuePath fromArg toArg granularity : String) (slices : Int) :
    Except String LocalQueryPayload :=
  if key = "" ∨ valuePath = "" then .error "--key and --value-path are required" else
  match ensureNoWildcards valuePath with
  | some e => .error e
  | none =>
  match resolveTimeRange lib now fromArg toArg with
  | .error e => .error e
  | .ok (fromV, toV) =>
  match resolveGranularityLocal granularity st.grans with
  | .error e => .error e
  | .ok granularityV =>
  match lib.parse fromV with
  | none => .error ("parsing time " ++ fromV)
  | some fromT =>
  match lib.parse toV with
  | none => .error ("parsing time " ++ toV)
  | some toT =>
  match st.values key fromT toT granularityV false with
  | .error e => .error (maybeSuggestSetup e st.driverName st.tableName)
  | .ok sv =>
  let available := sv.availablePaths
  let formatted := sv.category valuePath slices
  let matched := filterAvailable (extractCategoryPaths formatted) available
  if matched.isEmpty then
    .error ("no matching data found for path " ++ valuePath ++ " in the selected timeframe")
  else
    .ok { status := "ok", formatter := some "category", metricKey := key,
          valuePath := valuePath, slices := slices,
          timeframe := buildTimeframePayload fromV toV granularityV,
          result := some formatted,
          availablePaths := available, matchedPaths := matched,
          table := buildSeriesTable lib sv matched }

/-! ### Path-list lemmas -/

/-- Membership reading of `containsString`. -/
theorem containsString_iff (values : List String) (target : String) :
    containsString values target = true ↔ target ∈ values := by
  unfold containsString
  rw [List.any_eq_true]
  constructor
  · rintro ⟨v, hv, he⟩
    simp only [decide_eq_true_eq] at he
    exact he ▸ hv
  · intro h
    exact ⟨target, h, by simp⟩

/-- `uniqueStrings` preserves membership. -/
theorem mem_uniqueStrings (x : String) (l : List String) :
    x ∈ uniqueStrings l ↔ x ∈ l := by
  unfold uniqueStrings
  rw [(List.perm_insertionSort (· ≤ ·) l.dedup).mem_iff, List.mem_dedup]

/-- `uniqueStrings` output is duplicate-free and sorted. -/
theorem uniqueStrings_nodup_sorted (l : List String) :
    (uniqueStrings l).Nodup ∧ (uniqueStrings l).Sorted (· ≤ ·) := by
  unfold uniqueStrings
  exact ⟨(List.perm_insertionSort (· ≤ ·) l.dedup).symm.nodup (List.nodup_dedup l),
    List.sorted_insertionSort (· ≤ ·) l.dedup⟩

/-- Every element `filterAvailable` keeps is available. -/
theorem filterAvailable_mem (paths available : List String) (x : String)
    (hx : x ∈ filterAvailable paths available) : x ∈ available := by
  unfold filterAvailable at hx
  split at hx
  · simp at hx
  · rw [mem_uniqueStrings] at hx
    exact (containsString_iff _ _).mp (List.of_mem_filter hx)

/-- `filterAvailable` output is duplicate-free and sorted. -/
theorem filterAvailable_nodup_sorted (paths available : List String) :
    (filterAvailable paths available).Nodup ∧
    (filterAvailable paths available).Sorted (· ≤ ·) := by
  unfold filterAvailable
  split
  · simp
  · exact uniqueStrings_nodup_sorted _

/-- A non-empty `filterAvailable` result is a non-empty subset of the
available paths. -/
theorem filterAvailable_ok (paths available : List String)
    (h : (filterAvailable paths available).isEmpty = false) :
    filterAvailable paths available ≠ [] ∧
    ∀ x ∈ filterAvailable paths available, x ∈ available := by
  refine ⟨fun hnil => by simp [hnil] at h, fun x hx => filterAvailable_mem _ _ _ hx⟩

/-- A contained value path forms a non-empty subset singleton. -/
theorem singleton_matched_ok (available : List String) (vp : String)
    (h : containsString available vp = true) :
    [vp] ≠ [] ∧ ∀ x ∈ [vp], x ∈ available := by
  refine ⟨by simp, fun x hx => ?_⟩
  simp only [List.mem_singleton] at hx
  exact hx ▸ (containsString_iff _ _).mp h

/-- C3: every successful local aggregate/timeline/category result — via
the agent server (`queryPayloadLocal`) or the CLI commands — carries a
non-empty `matched_paths` list each of whose members is in
`available_paths`; an empty filter result is rejected as an error before
a payload is built. -/
theorem matchedPaths_nonempty_subset
    (lib : TimeLib) (now : Int) (st : LocalState) (mode : String) (args : Args)
    (key valuePath aggregator fromArg toArg granularity : String) (slices : Int)
    (p q r w : LocalQueryPayload) :
    (queryPayloadLocal lib now st mode args = .ok p →
      p.matchedPaths ≠ [] ∧ ∀ x ∈ p.matchedPaths, x ∈ p.availablePaths) ∧
    (metricsAggregateLocal lib now st key valuePath aggregator fromArg toArg granularity slices = .ok q →
      q.matchedPaths ≠ [] ∧ ∀ x ∈ q.matchedPaths, x ∈ q.availablePaths) ∧
    (metricsTimelineLocal lib now st key valuePath fromArg toArg granularity slices = .ok r →
      r.matchedPaths ≠ [] ∧ ∀ x ∈ r.matchedPaths, x ∈ r.availablePaths) ∧
    (metricsCategoryLocal lib now st key valuePath fromArg toArg granularity slices = .ok w →
      w.matchedPaths ≠ [] ∧ ∀ x ∈ w.matchedPaths, x ∈ w.availablePaths) := by
  refine ⟨?_, ?_, ?_, ?_⟩
  · intro h
    simp only [queryPayloadLocal] at h
    repeat' split at h
    all_goals
      first
      | exact Except.noConfusion h
      | (injection h with h; subst h;
         exact singleton_matched_ok _ _ (by simp_all))
      | (injection h with h; subst h;
         exact filterAvailable_ok _ _ (by simp_all))
  · intro h
    simp only [metricsAggregateLocal] at h
    repeat' split at h
    all_goals
      first
      | exact Except.noConfusion h
      | (injection h with h; subst h;
         exact singleton_matched_ok _ _ (by simp_all))
  · intro h
    simp only [metricsTimelineLocal] at h
    repeat' split at h
    all_goals
      first
      | exact Except.noConfusion h
      | (injection h with h; subst h;
         exact filterAvailable_ok _ _ (by simp_all))
  · intro h
    simp only [metricsCategoryLocal] at h
    repeat' split at h
    all_goals
      first
      | exact Except.noConfusion h
      | (injection h with h; subst h;
         exact filterAvailable_ok _ _ (by simp_all))

/-! ### Concrete fixtures -/

/-- A one-path series view whose aggregators return the value 5. -/
def svA : SeriesView :=
  { availablePaths := ["count"],
    aggSum := fun _ _ => [.num 5], aggMean := fun _ _ => [.num 5],
    aggMin := fun _ _ => [.num 5], aggMax := fun _ _ => [.num 5],
    timeline := fun _ _ => [("count", .num 5)],
    category := fun _ _ => .obj [("count", .num 5)],
    atTimes := [], cell := fun _ _ => none, normNum := fun v => some v }

/-- Local state that always fetches `svA` and always writes cleanly. -/
def stA : LocalState :=
  { driverName := "sqlite", tableName := "stats", grans := ["1h"],
    values := fun _ _ _ _ _ => .ok svA, write := fun _ _ _ _ => none }

/-- Arguments of a concrete aggregate query. -/
def argsA : Args :=
  [("key", .str "k"), ("value_path", .str "count"), ("aggregator", .str "sum"),
   ("from", .str "x"), ("to", .str "y")]

/-- The payload the aggregate query on `stA`/`argsA` produces. -/
def pAggA : LocalQueryPayload :=
  { status := "ok", aggregator := some "sum", metricKey := "k",
    valuePath := "count", slices := 1, values := some [JValue.num 5],
    count := some 1, timeframe := buildTimeframePayload "x" "y" "1h",
    availablePaths := ["count"], matchedPaths := ["count"],
    value := some (JValue.num 5) }

/-- Concrete instantiation of `matchedPaths_nonempty_subset`: the
aggregate query on `stA`/`argsA` succeeds with a non-empty matched list
contained in the available list. -/
theorem matchedPaths_nonempty_subset_witness :
    pAggA.matchedPaths ≠ [] ∧ ∀ x ∈ pAggA.matchedPaths, x ∈ pAggA.availablePaths :=
  (matchedPaths_nonempty_subset timeLibAll 0 stA "aggregate" argsA
    "k" "count" "sum" "x" "y" "" 1 pAggA pAggA pAggA pAggA).1 (by rfl)

/-- A series view reporting an unsorted, duplicated available-path list. -/
def svB : SeriesView :=
  { availablePaths := ["b", "a", "b"],
    aggSum := fun _ _ => [.num 5], aggMean := fun _ _ => [.num 5],
    aggMin := fun _ _ => [.num 5], aggMax := fun _ _ => [.num 5],
    timeline := fun _ _ => [("a", .num 1)],
    category := fun _ _ => .obj [("a", .num 1)],
    atTimes := [], cell := fun _ _ => none, normNum := fun v => some v }

/-- Local state that always fetches `svB`. -/
def stB : LocalState :=
  { driverName := "sqlite", tableName := "stats", grans := ["1h"],
    values := fun _ _ _ _ _ => .ok svB, write := fun _ _ _ _ => none }

/-- Arguments of an aggregate query against `svB`. -/
def argsB : Args :=
  [("key", .str "k"), ("value_path", .str "a"), ("aggregator", .str "sum"),
   ("from", .str "x"), ("to", .str "y")]

/-- The payload the aggregate query on `stB`/`argsB` produces: the
available-path list is passed through exactly as the library reported
it. -/
def pAggB : LocalQueryPayload :=
  { status := "ok", aggregator := some "sum", metricKey := "k",
    valuePath := "a", slices := 1, values := some [JValue.num 5],
    count := some 1, timeframe := buildTimeframePayload "x" "y" "1h",
    availablePaths := ["b", "a", "b"], matchedPaths := ["a"],
    value := some (JValue.num 5) }

/-- C4 counterexample: a successful local aggregate payload whose
`available_paths` list is neither duplicate-free nor sorted — the layer
returns the library-reported list verbatim. -/
theorem availablePaths_not_normalized :
    queryPayloadLocal timeLibAll 0 stB "aggregate" argsB = .ok pAggB ∧
    ¬(pAggB.availablePaths.Nodup ∧ pAggB.availablePaths.Sorted (· ≤ ·)) :=
  ⟨by rfl, by decide⟩

/-- C4 (amended): the matched-path list of every successful local query
is duplicate-free and sorted, while the available-path list is exactly
the list the series library reported, unmodified. -/
theorem paths_normalization_spec
    (lib : TimeLib) (now : Int) (st : LocalState) (mode : String) (args : Args)
    (key valuePath aggregator fromArg toArg granularity : String) (slices : Int)
    (p q r w : LocalQueryPayload) :
    (queryPayloadLocal lib now st mode args = .ok p →
      (p.matchedPaths.Nodup ∧ p.matchedPaths.Sorted (· ≤ ·)) ∧
      ∃ sv k f t g, st.values k f t g false = .ok sv ∧ p.availablePaths = sv.availablePaths) ∧
    (metricsAggregateLocal lib now st key valuePath aggregator fromArg toArg granularity slices = .ok q →
      (q.matchedPaths.Nodup ∧ q.matchedPaths.Sorted (· ≤ ·)) ∧
      ∃ sv k f t g, st.values k f t g false = .ok sv ∧ q.availablePaths = sv.availablePaths) ∧
    (metricsTimelineLocal lib now st key valuePath fromArg toArg granularity slices = .ok r →
      (r.matchedPaths.Nodup ∧ r.matchedPaths.Sorted (· ≤ ·)) ∧
      ∃ sv k f t g, st.values k f t g false = .ok sv ∧ r.availablePaths = sv.availablePaths) ∧
    (metricsCategoryLocal lib now st key valuePath fromArg toArg granularity slices = .ok w →
      (w.matchedPaths.Nodup ∧ w.matchedPaths.Sorted (· ≤ ·)) ∧
      ∃ sv k f t g, st.values k f t g false = .ok sv ∧ w.availablePaths = sv.availablePaths) := by
  refine ⟨?_, ?_, ?_, ?_⟩
  · intro h
    simp only [queryPayloadLocal] at h
    repeat' split at h
    all_goals first
      | exact Except.noConfusion h
      | (injection h with h; subst h;
         exact ⟨⟨by simp, List.sorted_singleton _⟩, _, _, _, _, _, by assumption, rfl⟩)
      | (injection h with h; subst h;
         exact ⟨filterAvailable_nodup_sorted _ _, _, _, _, _, _, by assumption, rfl⟩)
  · intro h
    simp only [metricsAggregateLocal] at h
    repeat' split at h
    all_goals first
      | exact Except.noConfusion h
      | (injection h with h; subst h;
         exact ⟨⟨by simp, List.sorted_singleton _⟩, _, _, _, _, _, by assumption, rfl⟩)
  · intro h
    simp only [metricsTimelineLocal] at h
    repeat' split at h
    all_goals first
      | exact Except.noConfusion h
      | (injection h with h; subst h;
         exact ⟨filterAvailable_nodup_sorted _ _, _, _, _, _, _, by assumption, rfl⟩)
  · intro h
    simp only [metricsCategoryLocal] at h
    repeat' split at h
    all_goals first
      | exact Except.noConfusion h
      | (injection h with h; subst h;
         exact ⟨filterAvailable_nodup_sorted _ _, _, _, _, _, _, by assumption, rfl⟩)

/-- Concrete instantiation of `paths_normalization_spec`: the matched
list of the `stA`/`argsA` aggregate is normalized and the available list
is the library-reported one. -/
theorem paths_normalization_spec_witness :
    (pAggA.matchedPaths.Nodup ∧ pAggA.matchedPaths.Sorted (· ≤ ·)) ∧
    ∃ sv k f t g, stA.values k f t g false = .ok sv ∧ pAggA.availablePaths = sv.availablePaths :=
  (paths_normalization_spec timeLibAll 0 stA "aggregate" argsA
    "k" "count" "sum" "x" "y" "" 1 pAggA pAggA pAggA pAggA).1 (by rfl)

/-! ### Slices handling (C8) -/

/-- An absent argument makes `getIntArg` return its fallback. -/
theorem getIntArg_absent (args : Args) (key : String) (fb : Int)
    (h : jlookup args key = none) : getIntArg args key fb = fb := by
  unfold getIntArg
  rw [h]

/-- A series view whose aggregators echo the slice count they were
called with. -/
def svC : SeriesView :=
  { availablePaths := ["count"],
    aggSum := fun _ s => [.num s], aggMean := fun _ s => [.num s],
    aggMin := fun _ s => [.num s], aggMax := fun _ s => [.num s],
    timeline := fun _ _ => [("count", .num 1)],
    category := fun _ _ => .obj [("count", .num 1)],
    atTimes := [], cell := fun _ _ => none, normNum := fun v => some v }

/-- Local state that always fetches `svC`. -/
def stC : LocalState :=
  { driverName := "sqlite", tableName := "stats", grans := ["1h"],
    values := fun _ _ _ _ _ => .ok svC, write := fun _ _ _ _ => none }

/-- The payload of the CLI aggregate on `stC` with `--slices 0`: the
supplied 0 reaches both the aggregator call and the payload. -/
def pAggC : LocalQueryPayload :=
  { status := "ok", aggregator := some "sum", metricKey := "k",
    valuePath := "count", slices := 0, values := some [JValue.num 0],
    count := some 1, timeframe := buildTimeframePayload "x" "y" "1h",
    availablePaths := ["count"], matchedPaths := ["count"] }

/-- C8 counterexample: the CLI aggregate command executes a supplied
`--slices 0` unchanged — the aggregator is invoked with 0, not with the
claimed clamped value 1. -/
theorem slices_unclamped_cli :
    metricsAggregateLocal timeLibAll 0 stC "k" "count" "sum" "x" "y" "" 0 = .ok pAggC ∧
    pAggC.slices = 0 ∧ pAggC.values = some [JValue.num 0] :=
  ⟨by rfl, rfl, rfl⟩

set_option maxHeartbeats 1000000 in
/-- C8 (amended): the agent-server local query path defaults `slices` to
1 when absent and clamps it to at least 1, while the CLI
aggregate/timeline/category commands pass the supplied `--slices` value
through unclamped. -/
theorem slices_clamping_spec
    (lib : TimeLib) (now : Int) (st : LocalState) (mode : String) (args : Args)
    (key valuePath aggregator fromArg toArg granularity : String) (slices : Int)
    (p q r w : LocalQueryPayload) :
    (queryPayloadLocal lib now st mode args = .ok p → 1 ≤ p.slices) ∧
    (jlookup args "slices" = none → queryPayloadLocal lib now st mode args = .ok p →
      p.slices = 1) ∧
    (metricsAggregateLocal lib now st key valuePath aggregator fromArg toArg granularity slices = .ok q →
      q.slices = slices) ∧
    (metricsTimelineLocal lib now st key valuePath fromArg toArg granularity slices = .ok r →
      r.slices = slices) ∧
    (metricsCategoryLocal lib now st key valuePath fromArg toArg granularity slices = .ok w →
      w.slices = slices) := by
  refine ⟨?_, ?_, ?_, ?_, ?_⟩
  · intro h
    simp only [queryPayloadLocal] at h
    repeat' split at h
    all_goals first
      | exact Except.noConfusion h
      | (injection h with h; subst h;
         first
         | exact le_refl _
         | exact Int.not_lt.mp (by assumption))
  · intro hnone h
    simp only [queryPayloadLocal] at h
    repeat' split at h
    all_goals first
      | exact Except.noConfusion h
      | (injection h with h; subst h;
         first
         | rfl
         | exact getIntArg_absent args "slices" 1 hnone)
  · intro h
    simp only [metricsAggregateLocal] at h
    repeat' split at h
    all_goals first
      | exact Except.noConfusion h
      | (injection h with h; subst h; rfl)
  · intro h
    simp only [metricsTimelineLocal] at h
    repeat' split at h
    all_goals first
      | exact Except.noConfusion h
      | (injection h with h; subst h; rfl)
  · intro h
    simp only [metricsCategoryLocal] at h
    repeat' split at h
    all_goals first
      | exact Except.noConfusion h
      | (injection h with h; subst h; rfl)

/-- Concrete instantiation of `slices_clamping_spec`: the agent-server
aggregate on `stA`/`argsA` (no `slices` argument) runs with slices = 1,
and the CLI aggregate with `--slices 0` keeps 0. -/
theorem slices_clamping_spec_witness :
    1 ≤ pAggA.slices ∧ pAggA.slices = 1 ∧ pAggC.slices = (0 : Int) := by
  refine ⟨?_, ?_, ?_⟩
  · exact (slices_clamping_spec timeLibAll 0 stA "aggregate" argsA
      "k" "count" "sum" "x" "y" "" 1 pAggA pAggA pAggA pAggA).1 (by rfl)
  · exact (slices_clamping_spec timeLibAll 0 stA "aggregate" argsA
      "k" "count" "sum" "x" "y" "" 1 pAggA pAggA pAggA pAggA).2.1 (by rfl) (by rfl)
  · exact (slices_clamping_spec timeLibAll 0 stC "aggregate" argsA
      "k" "count" "sum" "x" "y" "" 0 pAggA pAggC pAggA pAggA).2.2.1 (by rfl)

/-! ### Metric writes (main.go `performLocalWrite`, `metricsPush`;
mcp.go `writeMetricPayload`) -/

/-- Source `performLocalWrite` (main.go): dispatch the normalized mode
to `triflestats.Track` or `triflestats.Assert`; the returned `WriteKind`
records which library call ran (Go returns only the error). -/
def performLocalWrite (st : LocalState) (mode key : String) (atTime : Int)
    (values : List (String × JValue)) : Except String WriteKind :=
  match goToLower (goTrimSpace mode) with
  | "" =>
    match st.write .track key atTime values with
    | none => .ok .track
    | some e => .error e
  | "track" =>
    match st.write .track key atTime values with
    | none => .ok .track
    | some e => .error e
  | "assert" =>
    match st.write .assertKind key atTime values with
    | none => .ok .assertKind
    | some e => .error e
  | _ => .error ("invalid mode: " ++ mode ++ " (expected track or assert)")

/-- The `data` object of a successful local write response. -/
structure WritePayload where
  key : String
  atTime : Int
  values : List (String × JValue)

/-- Source `writeMetricPayloadLocal` (mcp.go): require a key and a
present values argument, default/validate `at`, require an object-shaped
values payload, then write in the hard-coded `track` mode. -/
def writeMetricPayloadLocal (lib : TimeLib) (now : Int) (st : LocalState) (args : Args) :
    Except String WritePayload :=
  let key := goTrimSpace (getStringArg args "key")
  if key = "" then .error "key is required" else
  match jlookup args "values" with
  | none => .error "values is required"
  | some values =>
  match (if goTrimSpace (getStringArg args "at") = "" then
           (.ok (lib.fmt now) : Except String String)
         else match validateTimestamp lib "at" (goTrimSpace (getStringArg args "at")) with
           | some e => .error e
           | none => .ok (goTrimSpace (getStringArg args "at"))) with
  | .error e => .error e
  | .ok atStr =>
  match lib.parse atStr with
  | none => .error ("parsing time " ++ atStr)
  | some atTime =>
  match ensureValuesMap values with
  | .error e => .error e
  | .ok valuesMap =>
  match performLocalWrite st "track" key atTime valuesMap with
  | .error e => .error (maybeSuggestSetup e st.driverName st.tableName)
  | .ok _ => .ok { key := key, atTime := atTime, values := valuesMap }

/-- Abstract model of the remote metrics API client calls the write path
uses. -/
structure RemoteLib where
  postMetrics : JValue → Except String JValue

/-- Remote branch of `writeMetricPayload` (mcp.go): require a key and a
present values argument, default/validate `at`, then post the payload to
the API with no shape check on values. -/
def writeMetricPayloadAPI (lib : TimeLib) (now : Int) (r : RemoteLib) (args : Args) :
    Except String JValue :=
  let key := goTrimSpace (getStringArg args "key")
  if key = "" then .error "key is required" else
  match jlookup args "values" with
  | none => .error "values is required"
  | some values =>
  match (if goTrimSpace (getStringArg args "at") = "" then
           (.ok (lib.fmt now) : Except String String)
         else match validateTimestamp lib "at" (goTrimSpace (getStringArg args "at")) with
           | some e => .error e
           | none => .ok (goTrimSpace (getStringArg args "at"))) with
  | .error e => .error e
  | .ok atStr =>
  r.postMetrics (.obj [("key", .str key), ("at", .str atStr), ("values", values)])

/-- The backend a session holds: one local driver or one API client
(mcp.go `mcpState`). -/
inductive McpBackend where
  | localDriver (st : LocalState)
  | api (r : RemoteLib)

/-- The two response shapes of `writeMetricPayload`. -/
inductive WriteOut where
  | localResp (p : WritePayload)
  | apiResp (resp : JValue)

/-- Source `writeMetricPayload` (mcp.go): dispatch on the session
backend. -/
def writeMetricPayload (lib : TimeLib) (now : Int) (b : McpBackend) (args : Args) :
    Except String WriteOut :=
  match b with
  | .localDriver st => (writeMetricPayloadLocal lib now st args).map .localResp
  | .api r => (writeMetricPayloadAPI lib now r args).map .apiResp

/-- Local branch of the CLI `metrics push` command (main.go
`metricsPush`): the `--mode` flag value is passed to
`performLocalWrite`; `values` is the payload parsed by
`loadJSONPayload` (`none` when absent/blank). -/
def metricsPushLocal (lib : TimeLib) (now : Int) (st : LocalState)
    (key atArg : String) (values : Option JValue) (mode : String) :
    Except String WritePayload :=
  if key = "" then .error "--key is required" else
  match values with
  | none => .error "--values or --values-file is required"
  | some values =>
  match (if goTrimSpace atArg = "" then
           (.ok (lib.fmt now) : Except String String)
         else match validateTimestamp lib "at" (goTrimSpace atArg) with
           | some e => .error e
           | none => .ok (goTrimSpace atArg)) with
  | .error e => .error e
  | .ok atStr =>
  match lib.parse atStr with
  | none => .error ("parsing time " ++ atStr)
  | some atTime =>
  match ensureValuesMap values with
  | .error e => .error e
  | .ok valuesMap =>
  match performLocalWrite st mode key atTime valuesMap with
  | .error e => .error (maybeSuggestSetup e st.driverName st.tableName)
  | .ok _ => .ok { key := key, atTime := atTime, values := valuesMap }

/-- Remote branch of the CLI `metrics push` command (main.go
`metricsPush`): the parsed values payload is posted with no shape
check. -/
def metricsPushAPI (lib : TimeLib) (now : Int) (r : RemoteLib)
    (key atArg : String) (values : Option JValue) : Except String JValue :=
  if key = "" then .error "--key is required" else
  match values with
  | none => .error "--values or --values-file is required"
  | some values =>
  match (if goTrimSpace atArg = "" then
           (.ok (lib.fmt now) : Except String String)
         else match validateTimestamp lib "at" (goTrimSpace atArg) with
           | some e => .error e
           | none => .ok (goTrimSpace atArg)) with
  | .error e => .error e
  | .ok atStr =>
  r.postMetrics (.obj [("key", .str key), ("at", .str atStr), ("values", values)])

/-! ### Values-shape validation (C6) -/

/-- A remote client that echoes the posted payload back. -/
def remoteEcho : RemoteLib := { postMetrics := fun payload => .ok payload }

/-- Write arguments whose values payload is a JSON array. -/
def argsArrValues : Args := [("key", .str "k"), ("values", .arr [])]

/-- C6 counterexample: a write with an array-shaped values payload
against the remote backend does not fail as invalid input — the payload
is posted to the backend as-is and the call succeeds. -/
theorem values_shape_unchecked_remote :
    writeMetricPayload timeLibAll 0 (.api remoteEcho) argsArrValues =
      .ok (.apiResp (.obj [("key", .str "k"), ("at", .str "t0"), ("values", .arr [])])) := by
  rfl

/-- C6 (amended): a local write (agent server or CLI push) requires the
values payload to be a JSON object — any other shape fails with the
values-must-be-an-object error before the storage write is consulted —
while the remote write posts whatever values shape was supplied without
validation. -/
theorem values_object_only_local
    (lib : TimeLib) (now : Int) (st : LocalState) (r : RemoteLib) (args : Args)
    (key atArg : String) (values : Option JValue) (mode : String)
    (v : JValue) (t : Int) (p p2 : WritePayload) :
    (∀ m, ensureValuesMap v = .ok m ↔ v = .obj m) ∧
    (writeMetricPayloadLocal lib now st args = .ok p →
      ∃ v0 m, jlookup args "values" = some v0 ∧ ensureValuesMap v0 = .ok m ∧ p.values = m) ∧
    (metricsPushLocal lib now st key atArg values mode = .ok p2 →
      ∃ v0 m, values = some v0 ∧ ensureValuesMap v0 = .ok m ∧ p2.values = m) ∧
    (goTrimSpace (getStringArg args "key") ≠ "" →
      jlookup args "values" = some v → (∀ m, v ≠ .obj m) →
      goTrimSpace (getStringArg args "at") = "" → lib.parse (lib.fmt now) = some t →
      writeMetricPayloadLocal lib now st args = .error "values must be a JSON object") ∧
    (goTrimSpace (getStringArg args "key") ≠ "" →
      jlookup args "values" = some v →
      goTrimSpace (getStringArg args "at") = "" →
      writeMetricPayloadAPI lib now r args =
        r.postMetrics (.obj [("key", .str (goTrimSpace (getStringArg args "key"))),
          ("at", .str (lib.fmt now)), ("values", v)])) := by
  refine ⟨?_, ?_, ?_, ?_, ?_⟩
  · intro m
    cases v <;> simp [ensureValuesMap]
  · intro h
    simp only [writeMetricPayloadLocal] at h
    repeat' split at h
    all_goals first
      | exact Except.noConfusion h
      | (injection h with h; subst h;
         exact ⟨_, _, by assumption, by assumption, rfl⟩)
  · intro h
    simp only [metricsPushLocal] at h
    repeat' split at h
    all_goals first
      | exact Except.noConfusion h
      | (injection h with h; subst h;
         exact ⟨_, _, rfl, by assumption, rfl⟩)
  · intro h1 h2 h3 h4 h5
    simp only [writeMetricPayloadLocal]
    rw [if_neg h1, h2, if_pos h4]
    dsimp only
    rw [h5]
    dsimp only
    cases v with
    | obj m => exact absurd rfl (h3 m)
    | null => rfl
    | bool b => rfl
    | num n => rfl
    | str s => rfl
    | arr l => rfl
  · intro h1 h2 h3
    simp only [writeMetricPayloadAPI]
    rw [if_neg h1, h2, if_pos h3]

/-- The payload of a successful object-shaped local write. -/
def pWriteA : WritePayload :=
  { key := "k", atTime := 0, values := [("count", JValue.num 1)] }

/-- Write arguments with an object-shaped values payload. -/
def argsObjValues : Args := [("key", .str "k"), ("values", .obj [("count", .num 1)])]

/-- Concrete instantiation of `values_object_only_local`: an object
payload round-trips through a successful local write, an array payload
is rejected locally with the object-shape error, and the same array
payload is posted untouched by the remote write. -/
theorem values_object_only_local_witness :
    (∃ v0 m, jlookup argsObjValues "values" = some v0 ∧
      ensureValuesMap v0 = .ok m ∧ pWriteA.values = m) ∧
    writeMetricPayloadLocal timeLibAll 0 stA argsArrValues =
      .error "values must be a JSON object" ∧
    writeMetricPayloadAPI timeLibAll 0 remoteEcho argsArrValues =
      remoteEcho.postMetrics (.obj [("key", .str "k"), ("at", .str "t0"), ("values", .arr [])]) := by
  refine ⟨?_, ?_, ?_⟩
  · exact (values_object_only_local timeLibAll 0 stA remoteEcho argsObjValues
      "k" "" none "track" (.arr []) 0 pWriteA pWriteA).2.1 (by rfl)
  · exact (values_object_only_local timeLibAll 0 stA remoteEcho argsArrValues
      "k" "" none "track" (.arr []) 0 pWriteA pWriteA).2.2.2.1
      (by decide) (by rfl) (fun m hm => JValue.noConfusion hm) (by rfl) (by rfl)
  · exact (values_object_only_local timeLibAll 0 stA remoteEcho argsArrValues
      "k" "" none "track" (.arr []) 0 pWriteA pWriteA).2.2.2.2
      (by decide) (by rfl) (by rfl)

/-! ### Write-mode dispatch (C10) -/

/-- A successful `performLocalWrite` in mode `"track"` means the track
library call ran and succeeded. -/
theorem performLocalWrite_track_ok (st : LocalState) (key : String) (t : Int)
    (v : List (String × JValue)) (k : WriteKind)
    (h : performLocalWrite st "track" key t v = .ok k) :
    st.write .track key t v = none ∧ k = .track := by
  unfold performLocalWrite at h
  split at h
  · split at h
    · exact ⟨by assumption, by injection h with h; exact h.symm⟩
    · exact Except.noConfusion h
  · split at h
    · exact ⟨by assumption, by injection h with h; exact h.symm⟩
    · exact Except.noConfusion h
  · exact absurd (by assumption : goToLower (goTrimSpace "track") = "assert") (by decide)
  · exact Except.noConfusion h

/-- A successful `performLocalWrite` in a mode normalizing to
`"assert"` means the assert library call ran and succeeded. -/
theorem performLocalWrite_assert_ok (st : LocalState) (mode key : String) (t : Int)
    (v : List (String × JValue)) (k : WriteKind)
    (hm : goToLower (goTrimSpace mode) = "assert")
    (h : performLocalWrite st mode key t v = .ok k) :
    st.write .assertKind key t v = none ∧ k = .assertKind := by
  unfold performLocalWrite at h
  split at h
  · exact absurd ((by assumption : goToLower (goTrimSpace mode) = "") ▸ hm) (by decide)
  · exact absurd ((by assumption : goToLower (goTrimSpace mode) = "track") ▸ hm) (by decide)
  · split at h
    · exact ⟨by assumption, by injection h with h; exact h.symm⟩
    · exact Except.noConfusion h
  · exact Except.noConfusion h

/-- A mode that normalizes to none of the three accepted spellings is
rejected as invalid without consulting either library call. -/
theorem performLocalWrite_invalid (st : LocalState) (mode key : String) (t : Int)
    (v : List (String × JValue))
    (hm1 : goToLower (goTrimSpace mode) ≠ "")
    (hm2 : goToLower (goTrimSpace mode) ≠ "track")
    (hm3 : goToLower (goTrimSpace mode) ≠ "assert") :
    performLocalWrite st mode key t v =
      .error ("invalid mode: " ++ mode ++ " (expected track or assert)") := by
  unfold performLocalWrite
  split
  · exact absurd (by assumption) hm1
  · exact absurd (by assumption) hm2
  · exact absurd (by assumption) hm3
  · rfl

/-- A successful `performLocalWrite` whose mode normalizes to `"track"`
or the empty string means the track library call ran and succeeded. -/
theorem performLocalWrite_trackish_ok (st : LocalState) (mode key : String) (t : Int)
    (v : List (String × JValue)) (k : WriteKind)
    (hm : goToLower (goTrimSpace mode) = "track" ∨ goToLower (goTrimSpace mode) = "")
    (h : performLocalWrite st mode key t v = .ok k) :
    st.write .track key t v = none := by
  unfold performLocalWrite at h
  split at h
  · split at h
    · assumption
    · exact Except.noConfusion h
  · split at h
    · assumption
    · exact Except.noConfusion h
  · have heq : goToLower (goTrimSpace mode) = "assert" := by assumption
    rw [heq] at hm
    rcases hm with hm | hm <;> exact absurd hm (by decide)
  · exact Except.noConfusion h

/-- Replace only the assert-mode behavior of a local state's write
call. -/
def withAssertBehavior (st : LocalState)
    (g : String → Int → List (String × JValue) → Option String) : LocalState :=
  { st with write := fun k =>
      match k with
      | .track => st.write .track
      | .assertKind => g }

set_option maxHeartbeats 1000000 in
/-- C10: every successful agent-server local write runs the track
(additive) library call; the assert behavior of the backend is
unreachable from that path (replacing it changes nothing), while the CLI
push command dispatches its `--mode` flag: `track` (or empty) runs
track, `assert` runs assert, and any other mode is rejected as invalid
before either library call. -/
theorem mcp_write_always_track
    (lib : TimeLib) (now : Int) (st : LocalState) (args : Args)
    (key atArg mode : String) (values : Option JValue)
    (g : String → Int → List (String × JValue) → Option String)
    (p q : WritePayload) :
    (writeMetricPayloadLocal lib now st args = .ok p →
      st.write .track p.key p.atTime p.values = none) ∧
    (writeMetricPayloadLocal lib now (withAssertBehavior st g) args =
      writeMetricPayloadLocal lib now st args) ∧
    (goToLower (goTrimSpace mode) = "assert" →
      metricsPushLocal lib now st key atArg values mode = .ok q →
      st.write .assertKind q.key q.atTime q.values = none) ∧
    (goToLower (goTrimSpace mode) = "track" ∨ goToLower (goTrimSpace mode) = "" →
      metricsPushLocal lib now st key atArg values mode = .ok q →
      st.write .track q.key q.atTime q.values = none) ∧
    (goToLower (goTrimSpace mode) ≠ "" → goToLower (goTrimSpace mode) ≠ "track" →
      goToLower (goTrimSpace mode) ≠ "assert" →
      (metricsPushLocal lib now st key atArg values mode).isOk = false) := by
  refine ⟨?_, ?_, ?_, ?_, ?_⟩
  · intro h
    simp only [writeMetricPayloadLocal] at h
    repeat' split at h
    all_goals first
      | exact Except.noConfusion h
      | (injection h with h; subst h;
         exact (performLocalWrite_track_ok _ _ _ _ _ (by assumption)).1)
  · rfl
  · intro hm h
    simp only [metricsPushLocal] at h
    repeat' split at h
    all_goals first
      | exact Except.noConfusion h
      | (injection h with h; subst h;
         exact (performLocalWrite_assert_ok _ _ _ _ _ _ hm (by assumption)).1)
  · intro hm h
    simp only [metricsPushLocal] at h
    repeat' split at h
    all_goals first
      | exact Except.noConfusion h
      | (injection h with h; subst h;
         exact performLocalWrite_trackish_ok _ _ _ _ _ _ hm (by assumption))
  · intro hm1 hm2 hm3
    simp only [metricsPushLocal]
    repeat' split
    all_goals try rfl
    all_goals
      (rename_i hperf
       rw [performLocalWrite_invalid st mode _ _ _ hm1 hm2 hm3] at hperf
       exact Except.noConfusion hperf)

/-- Concrete instantiation of `mcp_write_always_track`: a successful
agent-server write ran the track call, a CLI push with `--mode assert`
ran the assert call, and a CLI push with an unrecognized mode fails. -/
theorem mcp_write_always_track_witness :
    stA.write .track pWriteA.key pWriteA.atTime pWriteA.values = none ∧
    stA.write .assertKind pWriteA.key pWriteA.atTime pWriteA.values = none ∧
    (metricsPushLocal timeLibAll 0 stA "k" "" (some (.obj [("count", .num 1)])) "bogus").isOk = false := by
  refine ⟨?_, ?_, ?_⟩
  · exact (mcp_write_always_track timeLibAll 0 stA argsObjValues "k" "" "track"
      none (fun _ _ _ => none) pWriteA pWriteA).1 (by rfl)
  · exact (mcp_write_always_track timeLibAll 0 stA argsObjValues "k" "" "assert"
      (some (.obj [("count", .num 1)])) (fun _ _ _ => none) pWriteA pWriteA).2.2.1
      (by decide) (by rfl)
  · exact (mcp_write_always_track timeLibAll 0 stA argsObjValues "k" "" "bogus"
      (some (.obj [("count", .num 1)])) (fun _ _ _ => none) pWriteA pWriteA).2.2.2.2
      (by decide) (by decide) (by decide)

/-! ### Remote client response handling (internal/api/client.go `doJSON`) -/

/-- Outcome of the response-handling phase of `doJSON` after a response
arrives: the `api.Error{StatusCode, Body}` backend failure, a decode
failure, or success. -/
inductive ApiResult where
  | backendErr (status : Nat) (body : String)
  | decodeErr (body : String)
  | okResp

/-- Source `api.Error.Error()`: the rendered message of a backend
error. -/
def apiErrorMessage (status : Nat) (body : String) : String :=
  if body = "" then "api request failed with status " ++ toString status
  else "api request failed with status " ++ toString status ++ ": " ++ body

/-- Source `doJSON` (client.go), response phase: statuses of 400 and
above become `api.Error` with the trimmed body; otherwise the call
succeeds directly when no output is expected or the body is empty, and
otherwise the body is decoded (`decodeOK` models `json.Decoder.Decode`
succeeding). -/
def handleHTTPResponse (expectOut : Bool) (decodeOK : String → Bool)
    (status : Nat) (body : String) : ApiResult :=
  if 400 ≤ status then .backendErr status (goTrimSpace body)
  else if ¬expectOut then .okResp
  else if body = "" then .okResp
  else if decodeOK body then .okResp
  else .decodeErr body

/-- C9 counterexample: a 302 response — a non-2xx status — is not turned
into a backend error; the call succeeds at this layer. -/
theorem non2xx_not_always_backendErr :
    handleHTTPResponse true (fun _ => true) 302 "moved" = .okResp ∧
    ¬(200 ≤ 302 ∧ 302 < 300) := by
  exact ⟨rfl, by omega⟩

/-- C9 (amended): `doJSON` fails with `api.Error` carrying the status
code and the whitespace-trimmed response body exactly when the status is
400 or above; every response below 400 — 2xx but also 1xx/3xx — is
treated as success, decoding the body when one is expected and
present. -/
theorem doJSON_status_spec (expectOut : Bool) (decodeOK : String → Bool)
    (status : Nat) (body : String) :
    (400 ≤ status →
      handleHTTPResponse expectOut decodeOK status body = .backendErr status (goTrimSpace body)) ∧
    (status < 400 →
      ∀ s b, handleHTTPResponse expectOut decodeOK status body ≠ .backendErr s b) ∧
    (status < 400 → (expectOut = false ∨ body = "" ∨ decodeOK body = true) →
      handleHTTPResponse expectOut decodeOK status body = .okResp) := by
  unfold handleHTTPResponse
  refine ⟨?_, ?_, ?_⟩
  · intro h
    rw [if_pos h]
  · intro h s b
    rw [if_neg (by omega)]
    split
    · exact fun hc => ApiResult.noConfusion hc
    · split
      · exact fun hc => ApiResult.noConfusion hc
      · split
        · exact fun hc => ApiResult.noConfusion hc
        · exact fun hc => ApiResult.noConfusion hc
  · intro h hd
    rw [if_neg (by omega)]
    rcases hd with hd | hd | hd
    · rw [if_pos (by simp [hd])]
    · rw [hd]
      split
      · rfl
      · rw [if_pos rfl]
    · split
      · rfl
      · split
        · rfl
        · simp [hd]

/-- Concrete instantiation of `doJSON_status_spec`: a 404 becomes the
backend error with its trimmed body, and a 200 with a decodable body
succeeds. -/
theorem doJSON_status_spec_witness :
    handleHTTPResponse true (fun _ => true) 404 " not found " =
      .backendErr 404 "not found" ∧
    handleHTTPResponse true (fun _ => true) 200 "ok-body" = .okResp := by
  constructor
  · have h := (doJSON_status_spec true (fun _ => true) 404 " not found ").1 (by omega)
    rw [h]
    rfl
  · exact (doJSON_status_spec true (fun _ => true) 200 "ok-body").2.2 (by omega)
      (Or.inr (Or.inr rfl))

/-! ### Protocol front-end (mcp.go `serveMCP` and handlers) -/

/-- Source `rpcRequest`: `id`/`params` are raw JSON with `none` for an
absent field (`len(req.ID) == 0` in Go). -/
structure RpcRequest where
  jsonrpc : String
  id : Option JValue
  method : String
  params : Option JValue

/-- Source `rpcError`. -/
structure RpcErr where
  code : Int
  message : String

/-- Source `rpcResponse`. -/
structure RpcResponse where
  jsonrpc : String
  id : Option JValue
  result : Option JValue
  error : Option RpcErr

/-- Source `invalidParamsError`. -/
def invalidParamsError (message : String) : RpcErr := ⟨-32602, message⟩

/-- Source `methodNotFoundError`. -/
def methodNotFoundError (message : String) : RpcErr := ⟨-32601, message⟩

/-- Source `rpcResult`. -/
def rpcResult (id : Option JValue) (result : JValue) : RpcResponse :=
  ⟨"2.0", id, some result, none⟩

/-- The opening brace character, kept out of string literals. -/
def lbrace : String := String.singleton (Char.ofNat 123)

/-- The closing brace character, kept out of string literals. -/
def rbrace : String := String.singleton (Char.ofNat 125)

mutual
/-- Compact JSON rendering standing in for `json.MarshalIndent`
(whitespace and string escaping are not reproduced; no claim inspects
the rendered text). -/
def jprint : JValue → String
  | .null => "null"
  | .bool true => "true"
  | .bool false => "false"
  | .num n => toString n
  | .str s => "\"" ++ s ++ "\""
  | .arr l => "[" ++ String.intercalate "," (jprintList l) ++ "]"
  | .obj l => lbrace ++ String.intercalate "," (jprintEntries l) ++ rbrace

/-- Renders the elements of a JSON array. -/
def jprintList : List JValue → List String
  | [] => []
  | v :: rest => jprint v :: jprintList rest

/-- Renders the entries of a JSON object. -/
def jprintEntries : List (String × JValue) → List String
  | [] => []
  | (k, v) :: rest => ("\"" ++ k ++ "\":" ++ jprint v) :: jprintEntries rest
end

/-- Source `toolResult`: one text content block plus the error flag. -/
structure ToolResult where
  text : String
  isError : Bool

/-- Source `toolErrorResult`. -/
def toolErrorResult (err : String) : ToolResult := ⟨err, true⟩

/-- Source `toolResultFromJSON`: marshal the payload into the text
block. -/
def toolResultFromJSON (payload : JValue) : ToolResult := ⟨jprint payload, false⟩

/-- JSON encoding of a `toolResult` as it appears in the response
envelope (`isError` is omitempty). -/
def toolResultJSON (tr : ToolResult) : JValue :=
  .obj (("content", .arr [.obj [("type", .str "text"), ("text", .str tr.text)]]) ::
    (if tr.isError then [("isError", .bool true)] else []))

/-- Abstract bundle of the orchestrator payload functions `executeTool`
and `handleResourceRead` dispatch to, with the session backend closed
over (their local-driver implementations are embedded above as
`queryPayloadLocal`, `writeMetricPayloadLocal`, ...); `toolCatalog` and
`resourceCatalog` stand for `toolDefinitions(driver)` and
`resourceList(driver)`, whose contents no claim inspects. -/
structure Orch where
  listMetrics : Args → Except String JValue
  fetchSeries : Args → Except String JValue
  query : String → Args → Except String JValue
  writeMetric : Args → Except String JValue
  listTransponders : Except String JValue
  deleteTransponder : Args → Except String JValue
  toolCatalog : JValue
  resourceCatalog : JValue
  readResource : String → Except String JValue

/-- Source `executeTool` (mcp.go): dispatch by declared tool name;
unknown names are a local error. -/
def executeTool (orch : Orch) (name : String) (args : Args) : Except String ToolResult :=
  match name with
  | "list_metrics" => (orch.listMetrics args).map toolResultFromJSON
  | "fetch_series" => (orch.fetchSeries args).map toolResultFromJSON
  | "aggregate_series" => (orch.query "aggregate" args).map toolResultFromJSON
  | "format_timeline" => (orch.query "timeline" args).map toolResultFromJSON
  | "format_category" => (orch.query "category" args).map toolResultFromJSON
  | "write_metric" => (orch.writeMetric args).map toolResultFromJSON
  | "list_transponders" => orch.listTransponders.map toolResultFromJSON
  | "delete_transponder" => (orch.deleteTransponder args).map toolResultFromJSON
  | _ => .error ("unknown tool: " ++ name)

/-- Unmarshalling of `toolCallParams` from raw params: JSON null leaves
the zero value, an object reads `name` and `arguments`, any other shape
(or wrongly typed fields) is an unmarshal error. -/
def decodeToolCallParams (params : JValue) : Option (String × Option Args) :=
  match params with
  | .null => some ("", none)
  | .obj entries =>
    (match jlookup entries "name" with
     | none => some ""
     | some .null => some ""
     | some (.str s) => some s
     | some _ => none).bind fun name =>
    (match jlookup entries "arguments" with
     | none => some none
     | some .null => some none
     | some (.obj m) => some (some m)
     | some _ => none).map fun args => (name, args)
  | _ => none

/-- Source `handleToolCall` (mcp.go): envelope validation is a protocol
error; tool execution failures become a successful response flagged
`isError`. -/
def handleToolCall (orch : Orch) (req : RpcRequest) : Except RpcErr (Option RpcResponse) :=
  match req.params with
  | none => .error (invalidParamsError "missing params")
  | some params =>
  match decodeToolCallParams params with
  | none => .error (invalidParamsError "invalid tool call params")
  | some (name, argsOpt) =>
  if name = "" then .error (invalidParamsError "tool name required")
  else
    match executeTool orch name (argsOpt.getD []) with
    | .error e => .ok (some (rpcResult req.id (toolResultJSON (toolErrorResult e))))
    | .ok result => .ok (some (rpcResult req.id (toolResultJSON result)))

/-- Unmarshalling of `resourceReadParams` from raw params. -/
def decodeResourceReadParams (params : JValue) : Option String :=
  match params with
  | .null => some ""
  | .obj entries =>
    match jlookup entries "uri" with
    | none => some ""
    | some .null => some ""
    | some (.str s) => some s
    | some _ => none
  | _ => none

/-- Source `handleResourceRead` (mcp.go). -/
def handleResourceRead (orch : Orch) (req : RpcRequest) : Except RpcErr (Option RpcResponse) :=
  match req.params with
  | none => .error (invalidParamsError "missing params")
  | some params =>
  match decodeResourceReadParams params with
  | none => .error (invalidParamsError "invalid resource params")
  | some uri =>
  if uri = "" then .error (invalidParamsError "uri required")
  else
    match orch.readResource uri with
    | .error e => .ok (some (rpcResult req.id (toolResultJSON (toolErrorResult e))))
    | .ok payload => .ok (some (rpcResult req.id payload))

/-- Source `mcpProtocolVersion`. -/
def mcpProtocolVersion : String := "2024-11-05"

/-- Source `version` (main.go), as linked in a development build. -/
def version : String := "0.1.0-dev"

/-- Unmarshalling of `initializeParams` from raw params (only the
`protocolVersion` field is consumed by the handler). -/
def decodeInitializeParams (params : JValue) : Option String :=
  match params with
  | .null => some ""
  | .obj entries =>
    match jlookup entries "protocolVersion" with
    | none => some ""
    | some .null => some ""
    | some (.str s) => some s
    | some _ => none
  | _ => none

/-- Source `handleMCPRequest` (mcp.go): method dispatch; the returned
`none` (for `initialized`) means no response is emitted. -/
def handleMCPRequest (orch : Orch) (req : RpcRequest) : Except RpcErr (Option RpcResponse) :=
  match req.method with
  | "initialize" =>
    match (match req.params with
           | none => some ""
           | some params => decodeInitializeParams params) with
    | none => .error (invalidParamsError "invalid initialize params")
    | some clientProtocol =>
      let protocol := if clientProtocol = "" then mcpProtocolVersion else clientProtocol
      .ok (some (rpcResult req.id (.obj [
        ("protocolVersion", .str protocol),
        ("capabilities", .obj [
          ("tools", .obj [("listChanged", .bool false)]),
          ("resources", .obj [("listChanged", .bool false)])]),
        ("serverInfo", .obj [("name", .str "trifle-cli"), ("version", .str version)])])))
  | "initialized" => .ok none
  | "shutdown" => .ok (some (rpcResult req.id (.obj [])))
  | "exit" => .ok (some (rpcResult req.id (.obj [])))
  | "tools/list" => .ok (some (rpcResult req.id (.obj [("tools", orch.toolCatalog)])))
  | "tools/call" => handleToolCall orch req
  | "resources/list" => .ok (some (rpcResult req.id (.obj [("resources", orch.resourceCatalog)])))
  | "resources/read" => handleResourceRead orch req
  | _ => .error (methodNotFoundError ("method not found: " ++ req.method))

/-- One iteration of the `serveMCP` loop body (mcp.go) after a request
decodes: requests without the version marker are skipped; a handler
error is swallowed when the request has no id and otherwise becomes an
error envelope (`handleMCPRequest` only produces `rpcError` values, so
the -32603 wrapping branch is not reachable); a `none` response emits
nothing. -/
def stepMCP (orch : Orch) (req : RpcRequest) : Option RpcResponse :=
  if req.jsonrpc = "" then none
  else
    match handleMCPRequest orch req with
    | .ok none => none
    | .ok (some resp) => some resp
    | .error e =>
      match req.id with
      | none => none
      | some _ => some { jsonrpc := "2.0", id := req.id, result := none, error := some e }

/-- The method names `handleMCPRequest` recognizes. -/
def knownMethods : List String :=
  ["initialize", "initialized", "shutdown", "exit",
   "tools/list", "tools/call", "resources/list", "resources/read"]

/-- An unrecognized method is a method-not-found protocol error. -/
theorem handleMCPRequest_unknown (orch : Orch) (req : RpcRequest)
    (hm : req.method ∉ knownMethods) :
    handleMCPRequest orch req =
      .error (methodNotFoundError ("method not found: " ++ req.method)) := by
  unfold handleMCPRequest
  split
  all_goals first
    | rfl
    | (exfalso; apply hm; simp [knownMethods, *])

/-- An orchestrator every one of whose operations fails; the aggregate
query fails with the no-data message. -/
def orch0 : Orch :=
  { listMetrics := fun _ => .error "boom", fetchSeries := fun _ => .error "boom",
    query := fun _ _ => .error "no data available for path count in the selected timeframe",
    writeMetric := fun _ => .error "boom", listTransponders := .error "boom",
    deleteTransponder := fun _ => .error "boom", toolCatalog := .arr [],
    resourceCatalog := .arr [], readResource := fun _ => .error "boom" }

/-- C5 counterexample: an id-less `shutdown` request (a notification)
still causes a response object to be written to the output stream — the
loop suppresses only handler errors for notifications, not successful
responses. -/
theorem notification_response_still_written :
    stepMCP orch0 { jsonrpc := "2.0", id := none, method := "shutdown", params := none } =
      some { jsonrpc := "2.0", id := none, result := some (.obj []), error := none } := by
  rfl

/-- C5 (amended): requests without the version marker produce no output;
for id-less requests the handler still runs and protocol-level errors
are swallowed (in particular an id-less unknown method produces no
output), but a handler that returns a response — including the
`isError`-flagged response wrapping a tool execution failure — has that
response written even without an id. -/
theorem notification_semantics
    (orch : Orch) (req : RpcRequest) (e : RpcErr) (r : RpcResponse)
    (params : JValue) (name : String) (argsOpt : Option Args) (err : String) :
    (req.jsonrpc = "" → stepMCP orch req = none) ∧
    (req.jsonrpc ≠ "" → req.id = none → handleMCPRequest orch req = .error e →
      stepMCP orch req = none) ∧
    (req.jsonrpc ≠ "" → req.id = none → req.method ∉ knownMethods →
      stepMCP orch req = none) ∧
    (req.jsonrpc ≠ "" → handleMCPRequest orch req = .ok (some r) →
      stepMCP orch req = some r) ∧
    (req.jsonrpc ≠ "" → req.method = "tools/call" → req.params = some params →
      decodeToolCallParams params = some (name, argsOpt) → name ≠ "" →
      executeTool orch name (argsOpt.getD []) = .error err →
      stepMCP orch req = some (rpcResult req.id (toolResultJSON (toolErrorResult err)))) := by
  have swallow : req.jsonrpc ≠ "" → req.id = none →
      ∀ e', handleMCPRequest orch req = .error e' → stepMCP orch req = none := by
    intro hj hid e' hh
    unfold stepMCP
    rw [if_neg hj, hh, hid]
  refine ⟨?_, fun hj hid hh => swallow hj hid e hh,
    fun hj hid hm => swallow hj hid _ (handleMCPRequest_unknown orch req hm), ?_, ?_⟩
  · intro h
    unfold stepMCP
    rw [if_pos h]
  · intro hj hh
    unfold stepMCP
    rw [if_neg hj, hh]
  · intro hj hmeth hparams hdec hname hexec
    have h1 : handleMCPRequest orch req = handleToolCall orch req := by
      unfold handleMCPRequest
      rw [hmeth]
      rfl
    have h2 : handleToolCall orch req =
        .ok (some (rpcResult req.id (toolResultJSON (toolErrorResult err)))) := by
      unfold handleToolCall
      simp only [hparams, hdec, hexec, if_neg hname]
    unfold stepMCP
    rw [if_neg hj, h1, h2]

/-- An id-less request with an unknown method. -/
def reqBogus : RpcRequest :=
  { jsonrpc := "2.0", id := none, method := "bogus", params := none }

/-- An identified shutdown request. -/
def reqShutdown : RpcRequest :=
  { jsonrpc := "2.0", id := some (.num 1), method := "shutdown", params := none }

/-- An id-less tool call of the aggregate tool. -/
def reqToolCall : RpcRequest :=
  { jsonrpc := "2.0", id := none, method := "tools/call",
    params := some (.obj [("name", .str "aggregate_series")]) }

/-- Concrete instantiation of `notification_semantics`: an id-less
unknown method yields no output, an identified `shutdown` is answered,
and an id-less `tools/call` whose aggregate query finds no data still
writes an error-flagged response. -/
theorem notification_semantics_witness :
    stepMCP orch0 reqBogus = none ∧
    stepMCP orch0 reqShutdown = some (rpcResult (some (.num 1)) (.obj [])) ∧
    stepMCP orch0 reqToolCall =
      some (rpcResult none (toolResultJSON (toolErrorResult
        "no data available for path count in the selected timeframe"))) := by
  refine ⟨?_, ?_, ?_⟩
  · exact (notification_semantics orch0 reqBogus
      ⟨0, ""⟩ ⟨"", none, none, none⟩ .null "" none "").2.2.1
      (by decide) rfl (by decide)
  · exact (notification_semantics orch0 reqShutdown
      ⟨0, ""⟩ (rpcResult (some (.num 1)) (.obj [])) .null "" none "").2.2.2.1
      (by decide) rfl
  · exact (notification_semantics orch0 reqToolCall
      ⟨0, ""⟩ ⟨"", none, none, none⟩ (.obj [("name", .str "aggregate_series")])
      "aggregate_series" none
      "no data available for path count in the selected timeframe").2.2.2.2
      (by decide) rfl rfl rfl (by decide) rfl
